import Mathlib

/-!
Verification of the json-canvas-syndication pipeline.

This file gives a shallow embedding of the Rust sources
(`syndicate-json-canvas-lib/src/lib.rs`, `orchestrator.rs`,
`syndicate-json-canvas-sinks/src/jj_sink.rs`, `src/main.rs`) and proves or
refutes the specification's testable properties against it.

Modelling conventions:
- `HashMap` values are modelled as association lists in insertion order, or
  as total functions `NodeId → List _` with `[]` default where the source
  only ever appends.
- Rust `panic!`/`.expect(..)` is modelled with `Option` (`none` = panic).
- External side effects (process spawning, file writes) are reified into an
  explicit effect trace, with an oracle (`JjWorld`) supplying the outcomes
  of external commands.
- Rust strings are modelled as Lean `String` (sequences of characters);
  byte-index slicing in the source is modelled as character-index slicing.
-/

/-! ## Data model (jsoncanvas types, as used by the pipeline) -/

abbrev NodeId := String
abbrev EdgeId := String

/-- An edge of the canvas: `Edge::from_node` / `Edge::to_node`. -/
structure Edge where
  from_node : NodeId
  to_node : NodeId
deriving DecidableEq, Repr

/-- `jsoncanvas::color::PresetColor`. -/
inductive PresetColor where
  | red | orange | yellow | green | cyan | purple
deriving DecidableEq, Repr

/-- `jsoncanvas::color::Color`: a preset or a custom hex string. -/
inductive Color where
  | preset (p : PresetColor)
  | custom (hex : String)
deriving DecidableEq, Repr

/-- A canvas node, reduced to the fields the pipeline reads:
its kind (text with its text, or any non-text kind) and optional color. -/
inductive Node where
  | text (text : String) (color : Option Color)
  | nonText (color : Option Color)
deriving DecidableEq, Repr

/-- `Node::color()` accessor. -/
def Node.color : Node → Option Color
  | .text _ c => c
  | .nonText c => c

/-! ## GraphIndex: the adjacency fold of `to_syndication_format`
(`syndicate-json-canvas-lib/src/lib.rs` lines 34-59).

The source folds over the edge map, and for each edge:
- appends `(to_node, edge_id)` to `out_adjacency_map[from_node]`
  (inserting a fresh singleton when the key is absent);
- appends `(from_node, edge_id)` to `out_adjacency_map[to_node]` — note:
  the second insertion in the source targets `out_adjacency_map`, and
  `in_adjacency_map` is created and returned but never written.
Both behaviours are reproduced exactly here. -/

/-- Adjacency map: node identifier to its list of `(neighbor, edge)` pairs,
in insertion order; absent keys read as `[]` (matching `HashMap::get`
followed by insert-singleton-on-miss). -/
def AdjMap := NodeId → List (NodeId × EdgeId)

def emptyAdj : AdjMap := fun _ => []

/-- Append a pair to a key's list (insert `vec![p]` on miss, `push` on hit). -/
def adjAppend (m : AdjMap) (k : NodeId) (p : NodeId × EdgeId) : AdjMap :=
  fun x => if x = k then m k ++ [p] else m x

/-- The adjacency fold of `to_syndication_format`, verbatim from the source:
the first `map_or_else` appends `(to, eid)` under `from` in the out-map, the
second appends `(from, eid)` under `to` — also in the out-map — and the
in-map is threaded through unchanged. -/
def buildAdjacency (edges : List (EdgeId × Edge)) : AdjMap × AdjMap :=
  edges.foldl
    (fun maps e =>
      let outM := adjAppend maps.1 e.2.from_node (e.2.to_node, e.1)
      let outM := adjAppend outM e.2.to_node (e.2.from_node, e.1)
      (outM, maps.2))
    (emptyAdj, emptyAdj)

/-! ## Edge resolution (`lib.rs` lines 64-103).

For each node, the source resolves each adjacency entry with
`nodes.get(adjacent_node_id).expect("A NodeId should always correspond to a
Node")`. The `.expect` panic is modelled by `Option`: `none` means the
program panics. -/

/-- A resolved adjacency entry `(node, node_id, edge_id)` (the `ResolvedEdge`
tuple of the source, with the edge reference reduced to its identifier). -/
abbrev ResolvedEdge := Node × NodeId × EdgeId

/-- Resolve a list of adjacency entries against the node map; a missing
node identifier is the `.expect` panic, i.e. `none`. -/
def resolveEntries (nodes : List (NodeId × Node)) (entries : List (NodeId × EdgeId)) :
    Option (List ResolvedEdge) :=
  entries.mapM (fun p => (nodes.lookup p.1).map (fun n => (n, p.1, p.2)))

/-- The per-node body of `to_syndication_format`'s main `.map`: resolve the
node's out- and in-adjacency lists. `none` models the `.expect` panic. -/
def resolveNode (nodes : List (NodeId × Node)) (outM inM : AdjMap) (nid : NodeId) :
    Option (List ResolvedEdge × List ResolvedEdge) := do
  let outs ← resolveEntries nodes (outM nid)
  let ins ← resolveEntries nodes (inM nid)
  pure (outs, ins)

/-- The index-then-resolve portion of `to_syndication_format`: build the
adjacency maps, then resolve every node's entries. `none` models a panic
anywhere in the iteration. -/
def resolveAllNodes (nodes : List (NodeId × Node)) (edges : List (EdgeId × Edge)) :
    Option (List (NodeId × List ResolvedEdge × List ResolvedEdge)) :=
  let maps := buildAdjacency edges
  nodes.mapM (fun p => (resolveNode nodes maps.1 maps.2 p.1).map (fun r => (p.1, r)))

/-! ## NodeSelector: `default_node_filter` (`lib.rs` lines 105-126). -/

/-- `default_node_filter`, verbatim: a non-text node is rejected; a text node
with empty text is rejected; then a node whose color is absent, or present
but different from `Color::Preset(PresetColor::Red)`, is rejected; every
other node is accepted. The two adjacency arguments are ignored, as in the
source. -/
def default_node_filter (node : Node)
    (_outAdj _inAdj : List (NodeId × EdgeId)) : Bool :=
  match node with
  | .nonText _ => false
  | .text t _ =>
    if t.isEmpty then false
    else
      match node.color with
      | some color => if color ≠ Color.preset PresetColor.red then false else true
      | none => false

/-! ## Path validation (`orchestrator.rs` lines 16-24 / `main.rs` lines 26-34). -/

/-- What the validator observes about a path: whether `Path::is_file()`
holds (an existing regular file, after following links), and the final
component `Path::file_name()` when there is one. The file system itself is
abstracted into the `is_file` observation. -/
structure PathInfo where
  is_file : Bool
  file_name : Option String
deriving DecidableEq, Repr

/-- `Path::extension` on a file name, per the Rust documentation: `none`
when the name contains no dot other than a leading one (hidden files have
no extension); otherwise the portion after the last dot. -/
def rustExtension (name : List Char) : Option (List Char) :=
  match name with
  | [] => none
  | _ :: rest =>
    if '.' ∈ rest then some ((rest.reverse.takeWhile (fun c => c ≠ '.')).reverse)
    else none

/-- `path.extension().and_then(|s| s.to_str())` as observed by the validator. -/
def pathExtension (p : PathInfo) : Option String :=
  match p.file_name with
  | none => none
  | some n => (rustExtension n.data).map (fun cs => String.mk cs)

/-- `validate_canvas_path`, verbatim: reject non-files, then reject any
path whose extension is not exactly `canvas`. -/
def validate_canvas_path (p : PathInfo) : Except String Unit :=
  if !p.is_file then Except.error "Provided path must be a file"
  else if pathExtension p ≠ some "canvas" then
    Except.error "Expect the extension to be .canvas"
  else Except.ok ()

/-! ## The syndication item consumed by the sinks.

`jj_sink.rs` consumes a `SyndicationFormat` carrying the source node's
identifier, text and its in- and out-neighbor identifier lists (fields
`in_neighbor_ids` / `out_neighbor_ids` read at lines 104 and 121). -/

structure SyndicationFormat where
  id : NodeId
  text : String
  in_neighbor_ids : List NodeId
  out_neighbor_ids : List NodeId
deriving DecidableEq, Repr

/-! ## Word splitting and joining (Rust `split_whitespace` / `join`). -/

/-- `str::split_whitespace`: maximal runs of non-whitespace characters, in
order; whitespace runs produce no empty words. `acc` carries the current
word reversed. -/
def splitWsCore : List Char → List Char → List (List Char)
  | [], acc => if acc.isEmpty then [] else [acc.reverse]
  | c :: cs, acc =>
    if c.isWhitespace then
      if acc.isEmpty then splitWsCore cs []
      else acc.reverse :: splitWsCore cs []
    else splitWsCore cs (c :: acc)

/-- The whitespace-separated words of a string. -/
def splitWhitespace (s : String) : List (List Char) :=
  splitWsCore s.data []

/-- `Vec::join(sep)`: words interleaved with the separator. -/
def joinWith (sep : List Char) : List (List Char) → List Char
  | [] => []
  | [w] => w
  | w :: ws => w ++ sep ++ joinWith sep ws

/-! ## JJ sink: pure content generation
(`syndicate-json-canvas-sinks/src/jj_sink.rs`). -/

/-- The character filter of `generate_slug` line 67:
`c.is_alphanumeric() || *c == '-'`. -/
def charKeep (c : Char) : Bool := c.isAlphanum || c == '-'

/-- The per-word processing of `generate_slug` lines 64-70: keep
alphanumeric-and-hyphen characters, then lowercase. -/
def rustProcessWord (w : List Char) : List Char :=
  (w.filter charKeep).map Char.toLower

/-- `JjRepositorySink::generate_slug` (lines 61-74): first 8 whitespace
words, each filtered and lowercased, empties dropped, joined with `-`. -/
def generate_slug (text : String) : String :=
  String.mk (joinWith ['-']
    ((((splitWhitespace text).take 8).map rustProcessWord).filter
      (fun w => !w.isEmpty)))

/-- One pass of `str::replace('\\', "\\\\")`. -/
def replaceBackslash (cs : List Char) : List Char :=
  cs.flatMap (fun c => if c = '\\' then ['\\', '\\'] else [c])

/-- One pass of `str::replace('"', "\\\"")`. -/
def replaceQuote (cs : List Char) : List Char :=
  cs.flatMap (fun c => if c = '"' then ['\\', '"'] else [c])

/-- `JjRepositorySink::escape_yaml_string` (lines 82-84): double the
backslashes, then escape the double quotes. -/
def escape_yaml_string (s : String) : String :=
  String.mk (replaceQuote (replaceBackslash s.data))

/-- First 8 whitespace words joined with a space (the `title` / `link_text`
computation, lines 96-100 and 109-113). -/
def firstEightWords (text : String) : String :=
  String.mk (joinWith [' '] ((splitWhitespace text).take 8))

/-- The `/t/<slug>-<id>.md` href of lines 114 and 131. -/
def mkHref (slug : String) (nid : NodeId) : String :=
  "/t/" ++ slug ++ "-" ++ nid ++ ".md"

/-- The `context_for_this` entry list (lines 104-117): for each in-neighbor
identifier, the entry is built only when both the slug map and the batch map
resolve the identifier; otherwise the neighbor is silently skipped. -/
def contextForThis (item : SyndicationFormat) (slugs : List (NodeId × String))
    (all_items : List (NodeId × SyndicationFormat)) : List (String × String) :=
  item.in_neighbor_ids.filterMap (fun nid =>
    match slugs.lookup nid with
    | none => none
    | some neighbor_slug =>
      match all_items.lookup nid with
      | none => none
      | some neighbor_item =>
        some (firstEightWords neighbor_item.text, mkHref neighbor_slug nid))

/-- The `further_thinking` entry list (lines 121-134), same shape over the
out-neighbors. -/
def furtherThinking (item : SyndicationFormat) (slugs : List (NodeId × String))
    (all_items : List (NodeId × SyndicationFormat)) : List (String × String) :=
  item.out_neighbor_ids.filterMap (fun nid =>
    match slugs.lookup nid with
    | none => none
    | some neighbor_slug =>
      match all_items.lookup nid with
      | none => none
      | some neighbor_item =>
        some (firstEightWords neighbor_item.text, mkHref neighbor_slug nid))

/-- The two lines pushed per cross-reference entry (lines 145-146 and
153-154): an escaped `link_text` line and an `href` line. -/
def renderEntry (e : String × String) : String :=
  "  - link_text: \"" ++ escape_yaml_string e.1 ++ "\"\n"
    ++ "    href: \"" ++ e.2 ++ "\"\n"

/-- The entry rendering loops of lines 144-147 and 152-155: push each
entry's two lines, in entry order, onto the accumulated front matter. -/
def renderEntries (entries : List (String × String)) : String :=
  entries.foldl (fun acc e => acc ++ renderEntry e) ""

/-- `JjRepositorySink::generate_file_contents` (lines 87-161). The `date`
argument stands for `Local::now().format("%Y-%m-%d")`. -/
def generate_file_contents (item : SyndicationFormat)
    (slugs : List (NodeId × String)) (all_items : List (NodeId × SyndicationFormat))
    (date : String) : String :=
  let title := firstEightWords item.text
  let ctx := contextForThis item slugs all_items
  let fur := furtherThinking item slugs all_items
  let fm := "---\ntitle: \"" ++ escape_yaml_string title ++ "\"\ndate: " ++ date ++ "\n"
  let fm := fm ++ (if ctx.isEmpty then "" else "context_for_this:\n" ++ renderEntries ctx)
  let fm := fm ++ (if fur.isEmpty then "" else "further_thinking:\n" ++ renderEntries fur)
  let fm := fm ++ "---\n\n"
  fm ++ item.text

/-! ## JJ sink: commit message and effectful publish sequence. -/

/-- Error type of the sinks crate (`SinkError`). -/
inductive SinkError where
  | ioError (msg : String)
  | commandFailed (msg : String)
  | config (msg : String)
  | serialization (msg : String)
deriving DecidableEq, Repr

/-- Modelled from the spec: `SyndicationTracker` (module `crate::tracker`)
is not present under `src/`; only its callers are. Spec §4.3 specifies a
persisted set of already-published identifiers: `isPublished` is membership,
`markPublished` appends the given identifiers; persistence and its failure
mode are abstracted away (a persistence error leaves the in-memory set
updated, so the set below is the in-memory set). -/
structure SyndicationTracker where
  published : List NodeId
deriving DecidableEq, Repr

def SyndicationTracker.is_published (t : SyndicationTracker) (id : NodeId) : Bool :=
  t.published.contains id

def SyndicationTracker.mark_published (t : SyndicationTracker) (ids : List NodeId) :
    SyndicationTracker :=
  ⟨t.published ++ ids⟩

/-- The dedup filter of `process_canvas` (lines 54-57): keep exactly the
items whose identifier the tracker does not already contain. -/
def computeBatch (all_items : List (NodeId × SyndicationFormat))
    (tracker : SyndicationTracker) : List (NodeId × SyndicationFormat) :=
  all_items.filter (fun p => !tracker.is_published p.1)

/-- The decision tail of `process_canvas` (lines 49-92), with file reading,
parsing and selection abstracted into the already-selected `all_items` map
and the sink abstracted into its result function. Returns the tracker after
the cycle and the identifier list passed to `mark_published` (`none` when
`mark_published` is not called). Faithful to the source: the batch is the
unpublished filter of the items; an empty batch returns without calling the
sink; the ids are collected before publishing; marking happens exactly on a
successful publish with `dry_run` false. -/
def process_canvas_result (all_items : List (NodeId × SyndicationFormat))
    (tracker : SyndicationTracker) (dry_run : Bool)
    (sinkPublish : List (NodeId × SyndicationFormat) → Except SinkError Unit) :
    SyndicationTracker × Option (List NodeId) :=
  let new_items := computeBatch all_items tracker
  if new_items.isEmpty then (tracker, none)
  else
    let published_ids := new_items.map Prod.fst
    match sinkPublish new_items with
    | Except.ok _ =>
      if !dry_run then (tracker.mark_published published_ids, some published_ids)
      else (tracker, none)
    | Except.error _ => (tracker, none)

/-! ## Spec-modelled item construction.

The `to_syndication_format` revision under `src/` neither compiles nor
produces the `in_neighbor_ids` / `out_neighbor_ids` fields that
`jj_sink.rs` and `orchestrator.rs` consume; the revision that builds those
fields is not in the sources. Its contract is therefore modelled from the
spec (§3 SyndicationItem, §4.1 GraphIndex, §4.2 NodeSelector). -/

/-- Modelled from the spec: a node's in-neighbor identifiers are the
`from` endpoints of the edges pointing at it, in edge insertion order,
duplicates preserved. -/
def specInNeighborIds (edges : List (EdgeId × Edge)) (nid : NodeId) : List NodeId :=
  edges.filterMap (fun e => if e.2.to_node = nid then some e.2.from_node else none)

/-- Modelled from the spec: a node's out-neighbor identifiers are the `to`
endpoints of the edges leaving it, in edge insertion order. -/
def specOutNeighborIds (edges : List (EdgeId × Edge)) (nid : NodeId) : List NodeId :=
  edges.filterMap (fun e => if e.2.from_node = nid then some e.2.to_node else none)

/-- Modelled from the spec: the SyndicationItem of a selected node carries
the node's identifier, its text, and its neighbor identifier lists copied
from the adjacency index. `nodes` maps identifiers to node text. -/
def specItem (nodes : List (NodeId × String)) (edges : List (EdgeId × Edge))
    (nid : NodeId) : SyndicationFormat :=
  { id := nid
    text := (nodes.lookup nid).getD ""
    in_neighbor_ids := specInNeighborIds edges nid
    out_neighbor_ids := specOutNeighborIds edges nid }

/-- Modelled from the spec: the publish batch over the selected node
identifiers, each mapped to its SyndicationItem. -/
def specBatch (nodes : List (NodeId × String)) (edges : List (EdgeId × Edge))
    (sel : List NodeId) : List (NodeId × SyndicationFormat) :=
  sel.map (fun nid => (nid, specItem nodes edges nid))

/-- The slug precomputation of `publish` lines 229-232: each batch item's
identifier paired with the slug of its text. -/
def batchSlugs (batch : List (NodeId × SyndicationFormat)) : List (NodeId × String) :=
  batch.map (fun p => (p.1, generate_slug p.2.text))

/-- Concrete two-node canvas used to evaluate the cross-reference
machinery on a closed input. -/
def wNodes : List (NodeId × String) := [("a", "hello world"), ("b", "second thought")]

def wEdges : List (EdgeId × Edge) := [("e1", ⟨"a", "b"⟩)]

def wSel : List NodeId := ["a", "b"]

/-! ## Helper lemmas -/

/-- Looking up a key in a keyed map of itself yields the mapped value. -/
theorem lookup_map_self {β : Type} (sel : List NodeId) (f : NodeId → β)
    (i : NodeId) (hi : i ∈ sel) :
    (sel.map (fun j => (j, f j))).lookup i = some (f i) := by
  induction sel with
  | nil => simp at hi
  | cons j rest ih =>
    simp only [List.map_cons, List.lookup]
    by_cases hij : i = j
    · subst hij; simp
    · have : (i == j) = false := beq_false_of_ne hij
      rw [this]
      exact ih ((List.mem_cons.mp hi).resolve_left hij)

/-- A successful lookup in a keyed map of a list means the key is in the
list. -/
theorem mem_of_lookup_map {β : Type} (sel : List NodeId) (f : NodeId → β)
    (i : NodeId) (v : β)
    (h : (sel.map (fun j => (j, f j))).lookup i = some v) : i ∈ sel := by
  induction sel with
  | nil => simp [List.lookup] at h
  | cons j rest ih =>
    simp only [List.map_cons, List.lookup] at h
    by_cases hij : i = j
    · subst hij; exact List.mem_cons_self _ _
    · have hb : (i == j) = false := beq_false_of_ne hij
      rw [hb] at h
      exact List.mem_cons_of_mem _ (ih h)

/-- The head of a non-empty `dropWhile` fails the predicate. -/
theorem head_dropWhile_false {α : Type} (p : α → Bool) :
    ∀ (l : List α) (x : α) (xs : List α), l.dropWhile p = x :: xs → p x = false
  | [], x, xs, h => by simp [List.dropWhile] at h
  | a :: as, x, xs, h => by
    by_cases ha : p a
    · rw [List.dropWhile_cons_of_pos ha] at h
      exact head_dropWhile_false p as x xs h
    · rw [List.dropWhile_cons_of_neg ha] at h
      cases h
      exact Bool.of_not_eq_true ha

/-! ## Claim theorems -/

/-- C1: evaluation of the adjacency fold at the single edge `e1 : a → b`.
The code puts `(b, e1)` in `a`'s out-list as claimed, but it also puts
`(a, e1)` in `b`'s OUT-list, and `b`'s in-list stays empty — the pair
`(a, e1)` never appears in any in-list, contradicting the claim that it
appears in `to`'s in-list and nowhere else. -/
theorem buildAdjacency_misplaces_in_edges :
    (buildAdjacency [("e1", ⟨"a", "b"⟩)]).1 "a" = [("b", "e1")] ∧
    (buildAdjacency [("e1", ⟨"a", "b"⟩)]).1 "b" = [("a", "e1")] ∧
    (buildAdjacency [("e1", ⟨"a", "b"⟩)]).2 "b" = [] ∧
    ("a", "e1") ∉ (buildAdjacency [("e1", ⟨"a", "b"⟩)]).2 "b" := by
  refine ⟨by decide, by decide, by decide, by decide⟩

/-- C5: evaluation of `to_syndication_format`'s resolution step at a canvas
whose edge `e1 : a → b` references the absent node `b`. The edge is
recorded in the adjacency index (first conjunct), but resolving node `a`'s
adjacency hits `.expect("A NodeId should always correspond to a Node")` on
the missing `b` and panics (`none`), instead of tolerating the absent
endpoint as an unresolved reference. -/
theorem missing_node_resolution_panics :
    (buildAdjacency [("e1", ⟨"a", "b"⟩)]).1 "a" = [("b", "e1")] ∧
    resolveAllNodes [("a", Node.text "hello" (some (Color.preset PresetColor.red)))]
      [("e1", ⟨"a", "b"⟩)] = none := by
  refine ⟨by decide, by rfl⟩

/-- C7: the default node filter accepts a node exactly when it is a text
node with non-empty text and the red preset marker color; it is moreover
independent of the adjacency arguments, and — being a Lean function — a
pure function of its inputs. -/
theorem default_node_filter_spec (node : Node)
    (outA inA outA' inA' : List (NodeId × EdgeId)) :
    (default_node_filter node outA inA = true ↔
      ∃ t, node = Node.text t (some (Color.preset PresetColor.red)) ∧ t ≠ "") ∧
    default_node_filter node outA inA = default_node_filter node outA' inA' := by
  constructor
  · constructor
    · intro h
      cases node with
      | nonText c => exact absurd h (by simp [default_node_filter])
      | text t c =>
        simp only [default_node_filter] at h
        by_cases ht : t.isEmpty
        · rw [if_pos ht] at h
          exact absurd h (by simp)
        · rw [if_neg ht] at h
          cases c with
          | none => simp [Node.color] at h
          | some color =>
            simp only [Node.color] at h
            by_cases hr : color = Color.preset PresetColor.red
            · subst hr
              exact ⟨t, rfl, fun h0 => ht (h0 ▸ rfl)⟩
            · rw [if_pos hr] at h
              exact absurd h (by simp)
    · rintro ⟨t', ht', hne⟩
      cases node with
      | nonText c => exact Node.noConfusion ht'
      | text t c =>
        obtain ⟨rfl, rfl⟩ : t = t' ∧ c = some (Color.preset PresetColor.red) := by
          injection ht' with h1 h2
          exact ⟨h1, h2⟩
        simp only [default_node_filter]
        rw [if_neg (fun h0 => hne (String.isEmpty_iff t |>.mp h0))]
        simp [Node.color]
  · rfl

/-- C10: `validate_canvas_path` succeeds exactly when the path is an
existing regular file whose extension is exactly `canvas`; and on success
the file name really ends in `.canvas`. -/
theorem validate_canvas_path_spec (p : PathInfo) :
    (validate_canvas_path p = Except.ok () ↔
      (p.is_file = true ∧ pathExtension p = some "canvas")) ∧
    (validate_canvas_path p = Except.ok () →
      ∃ n pre, p.file_name = some n ∧ n.data = pre ++ ".canvas".data) := by
  obtain ⟨isf, fn⟩ := p
  have main : validate_canvas_path ⟨isf, fn⟩ = Except.ok () ↔
      (isf = true ∧ pathExtension ⟨isf, fn⟩ = some "canvas") := by
    unfold validate_canvas_path
    cases isf with
    | false => simp
    | true => by_cases he : pathExtension ⟨true, fn⟩ = some "canvas" <;> simp [he]
  refine ⟨main, ?_⟩
  intro h
  obtain ⟨-, hext⟩ := main.mp h
  unfold pathExtension at hext
  cases fn with
  | none => simp at hext
  | some n =>
    simp only [Option.map_eq_some'] at hext
    obtain ⟨cs, hcs, hmk⟩ := hext
    have hcs' : cs = "canvas".data := by
      have : (String.mk cs).data = "canvas".data := by rw [hmk]
      simpa using this
    subst hcs'
    generalize hdata : n.data = nd at hcs
    cases nd with
    | nil => simp [rustExtension] at hcs
    | cons c rest =>
      simp only [rustExtension] at hcs
      by_cases hdot : '.' ∈ rest
      · rw [if_pos hdot] at hcs
        have htk : rest.reverse.takeWhile (fun c => c ≠ '.') = "canvas".data.reverse := by
          have := congrArg List.reverse (Option.some.inj hcs)
          simpa using this
        have hsplit := List.takeWhile_append_dropWhile
          (p := fun c => decide (c ≠ '.')) (l := rest.reverse)
        cases hdp : rest.reverse.dropWhile (fun c => decide (c ≠ '.')) with
        | nil =>
          exfalso
          have hmem : '.' ∈ rest.reverse.takeWhile (fun c => decide (c ≠ '.')) ++
              rest.reverse.dropWhile (fun c => decide (c ≠ '.')) := by
            rw [hsplit]; exact List.mem_reverse.mpr hdot
          rw [hdp, List.append_nil] at hmem
          have := List.mem_takeWhile_imp hmem
          simp at this
        | cons d ds =>
          have hd : d = '.' := by
            have := head_dropWhile_false (fun c => decide (c ≠ '.')) rest.reverse d ds hdp
            simpa using this
          subst hd
          refine ⟨n, c :: ds.reverse, rfl, ?_⟩
          have hrest : rest = ds.reverse ++ '.' :: "canvas".data := by
            have : rest.reverse.reverse =
                (rest.reverse.takeWhile (fun c => decide (c ≠ '.')) ++
                  rest.reverse.dropWhile (fun c => decide (c ≠ '.'))).reverse := by
              rw [hsplit]
            rw [List.reverse_reverse] at this
            rw [this, hdp, htk]
            simp
          rw [hdata, hrest]
          simp
      · rw [if_neg hdot] at hcs
        simp at hcs

/-- C3: the batch of a processing cycle never contains an identifier the
tracker already holds; marking preserves previously marked identifiers; and
an identifier just marked is excluded from every future batch, whatever the
graph state. -/
theorem dedup_idempotence (X : NodeId) (tracker : SyndicationTracker)
    (h : tracker.is_published X = true) :
    (∀ all_items, X ∉ (computeBatch all_items tracker).map Prod.fst) ∧
    (∀ ids, (tracker.mark_published ids).is_published X = true) ∧
    (∀ (t : SyndicationTracker) (ids : List NodeId)
        (all_items : List (NodeId × SyndicationFormat)), X ∈ ids →
      X ∉ (computeBatch all_items (t.mark_published ids)).map Prod.fst) := by
  have batch_excludes : ∀ (tr : SyndicationTracker),
      tr.is_published X = true →
      ∀ all_items, X ∉ (computeBatch all_items tr).map Prod.fst := by
    intro tr htr all_items hmem
    simp only [computeBatch, List.mem_map, List.mem_filter] at hmem
    obtain ⟨p, ⟨-, hfilter⟩, hfst⟩ := hmem
    rw [hfst, htr] at hfilter
    simp at hfilter
  refine ⟨batch_excludes tracker h, ?_, ?_⟩
  · intro ids
    simp only [SyndicationTracker.is_published, SyndicationTracker.mark_published,
      List.contains_eq_any_beq, List.any_eq_true] at h ⊢
    obtain ⟨a, ha, hb⟩ := h
    exact ⟨a, List.mem_append_left _ ha, hb⟩
  · intro t ids all_items hX
    refine batch_excludes _ ?_ all_items
    simp only [SyndicationTracker.is_published, SyndicationTracker.mark_published,
      List.contains_eq_any_beq, List.any_eq_true]
    exact ⟨X, List.mem_append_right _ hX, by simp⟩

/-- C3 witness: a tracker already holding `x` yields a batch without `x`
on a graph still containing `x`. -/
theorem dedup_idempotence_witness :
    (SyndicationTracker.mk ["x"]).is_published "x" = true ∧
    ("x" : NodeId) ∉ (computeBatch [("x", ⟨"x", "t", [], []⟩)]
      (SyndicationTracker.mk ["x"])).map Prod.fst :=
  ⟨by decide, (dedup_idempotence "x" ⟨["x"]⟩ (by decide)).1 [("x", ⟨"x", "t", [], []⟩)]⟩

/-- C4: with a non-empty batch, `mark_published` receives exactly the
batch's identifiers precisely when the sink's publish returned success and
`dry_run` is false; under `dry_run` nothing is ever marked; on publish
failure nothing is marked and the tracker is unchanged. -/
theorem marking_semantics (all_items : List (NodeId × SyndicationFormat))
    (tracker : SyndicationTracker) (dry_run : Bool)
    (sinkPublish : List (NodeId × SyndicationFormat) → Except SinkError Unit)
    (hne : (computeBatch all_items tracker).isEmpty = false) :
    ((process_canvas_result all_items tracker dry_run sinkPublish).2 =
        some ((computeBatch all_items tracker).map Prod.fst) ↔
      (sinkPublish (computeBatch all_items tracker) = Except.ok () ∧ dry_run = false)) ∧
    (dry_run = true →
      (process_canvas_result all_items tracker dry_run sinkPublish).2 = none) ∧
    (∀ e, sinkPublish (computeBatch all_items tracker) = Except.error e →
      (process_canvas_result all_items tracker dry_run sinkPublish).2 = none ∧
      (process_canvas_result all_items tracker dry_run sinkPublish).1 = tracker) := by
  cases hs : sinkPublish (computeBatch all_items tracker) with
  | ok u =>
    cases u
    cases dry_run with
    | false => simp [process_canvas_result, hne, hs]
    | true => simp [process_canvas_result, hne, hs]
  | error e =>
    cases dry_run with
    | false => simp [process_canvas_result, hne, hs]
    | true => simp [process_canvas_result, hne, hs]

/-- C4 witness: one new item, a successful sink, `dry_run` false — the
batch's identifier list is marked. -/
theorem marking_semantics_witness :
    (process_canvas_result [("a", ⟨"a", "t", [], []⟩)] (SyndicationTracker.mk [])
        false (fun _ => Except.ok ())).2 =
      some ((computeBatch [("a", ⟨"a", "t", [], []⟩)] (SyndicationTracker.mk [])).map
        Prod.fst) :=
  (marking_semantics [("a", ⟨"a", "t", [], []⟩)] ⟨[]⟩ false (fun _ => Except.ok ())
    (by decide)).1.mpr ⟨rfl, rfl⟩

/-- The slug map of a spec batch, in keyed-map form. -/
theorem batchSlugs_specBatch (nodes : List (NodeId × String))
    (edges : List (EdgeId × Edge)) (sel : List NodeId) :
    batchSlugs (specBatch nodes edges sel) =
      sel.map (fun nid => (nid, generate_slug (specItem nodes edges nid).text)) := by
  unfold batchSlugs specBatch
  rw [List.map_map]
  rfl

/-- Every entry of an entry list occurs contiguously in its rendered
block: the block splits as a prefix, the entry's two lines, and a suffix.
Auxiliary fact: folding the render loop from any accumulator prepends it. -/
theorem renderEntries_append_acc (entries : List (String × String)) :
    ∀ acc : String,
      entries.foldl (fun acc e => acc ++ renderEntry e) acc =
        acc ++ renderEntries entries := by
  induction entries with
  | nil =>
    intro acc
    simp [renderEntries]
  | cons e rest ih =>
    intro acc
    show List.foldl (fun acc e => acc ++ renderEntry e) (acc ++ renderEntry e) rest =
      acc ++ renderEntries (e :: rest)
    have hm : renderEntries (e :: rest) =
        List.foldl (fun acc e => acc ++ renderEntry e) ("" ++ renderEntry e) rest := rfl
    rw [hm, ih, ih]
    simp [String.append_assoc]

/-- Membership in an entry list puts the entry's rendered lines inside the
rendered block. -/
theorem renderEntries_mem (entries : List (String × String)) (e : String × String)
    (h : e ∈ entries) :
    ∃ pre post, renderEntries entries = pre ++ renderEntry e ++ post := by
  induction entries with
  | nil => simp at h
  | cons x rest ih =>
    have hcons : renderEntries (x :: rest) = renderEntry x ++ renderEntries rest := by
      show List.foldl (fun acc e => acc ++ renderEntry e) ("" ++ renderEntry x) rest =
        renderEntry x ++ renderEntries rest
      rw [renderEntries_append_acc]
      simp
    rcases List.mem_cons.mp h with rfl | hm
    · refine ⟨"", renderEntries rest, ?_⟩
      rw [hcons]
      simp
    · obtain ⟨pre, post, hp⟩ := ih hm
      refine ⟨renderEntry x ++ pre, post, ?_⟩
      rw [hcons, hp]
      simp [String.append_assoc]

/-- The rendered file in closed form: title/date line, then the
`context_for_this` section exactly when its list is non-empty, then the
`further_thinking` section exactly when its list is non-empty, then the
closing fence and the raw text — the two sections guarded independently,
as in the source. -/
theorem generate_file_contents_eq (item : SyndicationFormat)
    (slugs : List (NodeId × String))
    (all_items : List (NodeId × SyndicationFormat)) (date : String) :
    generate_file_contents item slugs all_items date =
      "---\ntitle: \"" ++ escape_yaml_string (firstEightWords item.text) ++
        "\"\ndate: " ++ date ++ "\n" ++
      (if (contextForThis item slugs all_items).isEmpty then ""
        else "context_for_this:\n" ++
          renderEntries (contextForThis item slugs all_items)) ++
      (if (furtherThinking item slugs all_items).isEmpty then ""
        else "further_thinking:\n" ++
          renderEntries (furtherThinking item slugs all_items)) ++
      "---\n\n" ++ item.text := rfl

/-- C2: with batch items carrying the spec-modelled neighbor lists, an
edge `A → B` between two batch members makes B's rendered front matter
contain a `context_for_this` entry whose href links to A — the rendered
output carries the `context_for_this` section and that section's block
contains the entry's lines — and symmetrically A's rendered front matter
contains a `further_thinking` entry linking to B; the `context_for_this`
section is omitted entirely from the rendered output whenever its list is
empty, and likewise, independently, the `further_thinking` section; and
every `context_for_this` (resp. `further_thinking`) entry of any rendered
item comes from an in-neighbor (resp. out-neighbor) identifier present in
the batch — neighbors absent from the batch are silently skipped. -/
theorem cross_reference_accuracy (nodes : List (NodeId × String))
    (edges : List (EdgeId × Edge)) (sel : List NodeId) (A B : NodeId)
    (eid : EdgeId) (date : String)
    (hA : A ∈ sel) (hB : B ∈ sel) (hedge : (eid, Edge.mk A B) ∈ edges) :
    (∃ lt,
      (lt, mkHref (generate_slug (specItem nodes edges A).text) A) ∈
        contextForThis (specItem nodes edges B)
          (batchSlugs (specBatch nodes edges sel)) (specBatch nodes edges sel) ∧
      generate_file_contents (specItem nodes edges B)
          (batchSlugs (specBatch nodes edges sel)) (specBatch nodes edges sel) date =
        "---\ntitle: \"" ++
          escape_yaml_string (firstEightWords (specItem nodes edges B).text) ++
          "\"\ndate: " ++ date ++ "\n" ++
        ("context_for_this:\n" ++
          renderEntries (contextForThis (specItem nodes edges B)
            (batchSlugs (specBatch nodes edges sel)) (specBatch nodes edges sel))) ++
        (if (furtherThinking (specItem nodes edges B)
              (batchSlugs (specBatch nodes edges sel))
              (specBatch nodes edges sel)).isEmpty then ""
          else "further_thinking:\n" ++
            renderEntries (furtherThinking (specItem nodes edges B)
              (batchSlugs (specBatch nodes edges sel)) (specBatch nodes edges sel))) ++
        "---\n\n" ++ (specItem nodes edges B).text ∧
      ∃ pre post,
        renderEntries (contextForThis (specItem nodes edges B)
            (batchSlugs (specBatch nodes edges sel)) (specBatch nodes edges sel)) =
          pre ++
            renderEntry (lt, mkHref (generate_slug (specItem nodes edges A).text) A) ++
            post) ∧
    (∃ lt,
      (lt, mkHref (generate_slug (specItem nodes edges B).text) B) ∈
        furtherThinking (specItem nodes edges A)
          (batchSlugs (specBatch nodes edges sel)) (specBatch nodes edges sel) ∧
      generate_file_contents (specItem nodes edges A)
          (batchSlugs (specBatch nodes edges sel)) (specBatch nodes edges sel) date =
        "---\ntitle: \"" ++
          escape_yaml_string (firstEightWords (specItem nodes edges A).text) ++
          "\"\ndate: " ++ date ++ "\n" ++
        (if (contextForThis (specItem nodes edges A)
              (batchSlugs (specBatch nodes edges sel))
              (specBatch nodes edges sel)).isEmpty then ""
          else "context_for_this:\n" ++
            renderEntries (contextForThis (specItem nodes edges A)
              (batchSlugs (specBatch nodes edges sel)) (specBatch nodes edges sel))) ++
        ("further_thinking:\n" ++
          renderEntries (furtherThinking (specItem nodes edges A)
            (batchSlugs (specBatch nodes edges sel)) (specBatch nodes edges sel))) ++
        "---\n\n" ++ (specItem nodes edges A).text ∧
      ∃ pre post,
        renderEntries (furtherThinking (specItem nodes edges A)
            (batchSlugs (specBatch nodes edges sel)) (specBatch nodes edges sel)) =
          pre ++
            renderEntry (lt, mkHref (generate_slug (specItem nodes edges B).text) B) ++
            post) ∧
    (∀ item,
      contextForThis item (batchSlugs (specBatch nodes edges sel))
        (specBatch nodes edges sel) = [] →
      generate_file_contents item (batchSlugs (specBatch nodes edges sel))
        (specBatch nodes edges sel) date =
        "---\ntitle: \"" ++ escape_yaml_string (firstEightWords item.text) ++
          "\"\ndate: " ++ date ++ "\n" ++
        (if (furtherThinking item (batchSlugs (specBatch nodes edges sel))
              (specBatch nodes edges sel)).isEmpty then ""
          else "further_thinking:\n" ++
            renderEntries (furtherThinking item (batchSlugs (specBatch nodes edges sel))
              (specBatch nodes edges sel))) ++
        "---\n\n" ++ item.text) ∧
    (∀ item,
      furtherThinking item (batchSlugs (specBatch nodes edges sel))
        (specBatch nodes edges sel) = [] →
      generate_file_contents item (batchSlugs (specBatch nodes edges sel))
        (specBatch nodes edges sel) date =
        "---\ntitle: \"" ++ escape_yaml_string (firstEightWords item.text) ++
          "\"\ndate: " ++ date ++ "\n" ++
        (if (contextForThis item (batchSlugs (specBatch nodes edges sel))
              (specBatch nodes edges sel)).isEmpty then ""
          else "context_for_this:\n" ++
            renderEntries (contextForThis item (batchSlugs (specBatch nodes edges sel))
              (specBatch nodes edges sel))) ++
        "---\n\n" ++ item.text) ∧
    (∀ item e,
      e ∈ contextForThis item (batchSlugs (specBatch nodes edges sel))
        (specBatch nodes edges sel) →
      ∃ nid, nid ∈ item.in_neighbor_ids ∧ nid ∈ sel ∧
        e.2 = mkHref (generate_slug (specItem nodes edges nid).text) nid) ∧
    (∀ item e,
      e ∈ furtherThinking item (batchSlugs (specBatch nodes edges sel))
        (specBatch nodes edges sel) →
      ∃ nid, nid ∈ item.out_neighbor_ids ∧ nid ∈ sel ∧
        e.2 = mkHref (generate_slug (specItem nodes edges nid).text) nid) := by
  have hlookS : ∀ i, i ∈ sel →
      (batchSlugs (specBatch nodes edges sel)).lookup i =
        some (generate_slug (specItem nodes edges i).text) := by
    intro i hi
    rw [batchSlugs_specBatch]
    exact lookup_map_self sel _ i hi
  have hlookB : ∀ i, i ∈ sel →
      (specBatch nodes edges sel).lookup i = some (specItem nodes edges i) := by
    intro i hi
    unfold specBatch
    exact lookup_map_self sel _ i hi
  have hctxB : (firstEightWords (specItem nodes edges A).text,
      mkHref (generate_slug (specItem nodes edges A).text) A) ∈
      contextForThis (specItem nodes edges B)
        (batchSlugs (specBatch nodes edges sel)) (specBatch nodes edges sel) := by
    unfold contextForThis
    apply List.mem_filterMap.mpr
    refine ⟨A, ?_, ?_⟩
    · show A ∈ (specItem nodes edges B).in_neighbor_ids
      simp only [specItem]
      unfold specInNeighborIds
      apply List.mem_filterMap.mpr
      exact ⟨(eid, Edge.mk A B), hedge, by simp⟩
    · simp only [hlookS A hA, hlookB A hA]
  have hfurA : (firstEightWords (specItem nodes edges B).text,
      mkHref (generate_slug (specItem nodes edges B).text) B) ∈
      furtherThinking (specItem nodes edges A)
        (batchSlugs (specBatch nodes edges sel)) (specBatch nodes edges sel) := by
    unfold furtherThinking
    apply List.mem_filterMap.mpr
    refine ⟨B, ?_, ?_⟩
    · show B ∈ (specItem nodes edges A).out_neighbor_ids
      simp only [specItem]
      unfold specOutNeighborIds
      apply List.mem_filterMap.mpr
      exact ⟨(eid, Edge.mk A B), hedge, by simp⟩
    · simp only [hlookS B hB, hlookB B hB]
  refine ⟨⟨firstEightWords (specItem nodes edges A).text, hctxB, ?_,
      renderEntries_mem _ _ hctxB⟩,
    ⟨firstEightWords (specItem nodes edges B).text, hfurA, ?_,
      renderEntries_mem _ _ hfurA⟩, ?_, ?_, ?_, ?_⟩
  · have hne := List.ne_nil_of_mem hctxB
    have hnc : ¬((contextForThis (specItem nodes edges B)
        (batchSlugs (specBatch nodes edges sel))
        (specBatch nodes edges sel)).isEmpty = true) := by
      simp [List.isEmpty_iff, hne]
    rw [generate_file_contents_eq, if_neg hnc]
  · have hne := List.ne_nil_of_mem hfurA
    have hnf : ¬((furtherThinking (specItem nodes edges A)
        (batchSlugs (specBatch nodes edges sel))
        (specBatch nodes edges sel)).isEmpty = true) := by
      simp [List.isEmpty_iff, hne]
    rw [generate_file_contents_eq, if_neg hnf]
  · intro item hc
    rw [generate_file_contents_eq, hc]
    simp
  · intro item hfu
    rw [generate_file_contents_eq, hfu]
    simp
  · intro item e he
    unfold contextForThis at he
    obtain ⟨nid, hin, hf⟩ := List.mem_filterMap.mp he
    cases hs : (batchSlugs (specBatch nodes edges sel)).lookup nid with
    | none => simp [hs] at hf
    | some slugv =>
      cases hb : (specBatch nodes edges sel).lookup nid with
      | none => simp [hs, hb] at hf
      | some itemv =>
        simp only [hs, hb] at hf
        have hmem : nid ∈ sel := by
          unfold specBatch at hb
          exact mem_of_lookup_map sel _ nid itemv hb
        have hsv : slugv = generate_slug (specItem nodes edges nid).text := by
          have := hlookS nid hmem
          rw [hs] at this
          exact Option.some.inj this
        refine ⟨nid, hin, hmem, ?_⟩
        obtain rfl := Option.some.inj hf
        rw [hsv]
  · intro item e he
    unfold furtherThinking at he
    obtain ⟨nid, hin, hf⟩ := List.mem_filterMap.mp he
    cases hs : (batchSlugs (specBatch nodes edges sel)).lookup nid with
    | none => simp [hs] at hf
    | some slugv =>
      cases hb : (specBatch nodes edges sel).lookup nid with
      | none => simp [hs, hb] at hf
      | some itemv =>
        simp only [hs, hb] at hf
        have hmem : nid ∈ sel := by
          unfold specBatch at hb
          exact mem_of_lookup_map sel _ nid itemv hb
        have hsv : slugv = generate_slug (specItem nodes edges nid).text := by
          have := hlookS nid hmem
          rw [hs] at this
          exact Option.some.inj this
        refine ⟨nid, hin, hmem, ?_⟩
        obtain rfl := Option.some.inj hf
        rw [hsv]

/-- C2 witness: on the concrete two-node canvas with edge `a → b` and both
nodes selected, `b`'s rendered front matter carries the `context_for_this`
section with an entry linking to `a`, and `a`'s carries the
`further_thinking` section with an entry linking to `b`. -/
theorem cross_reference_accuracy_witness :
    (∃ lt,
      (lt, mkHref (generate_slug (specItem wNodes wEdges "a").text) "a") ∈
        contextForThis (specItem wNodes wEdges "b")
          (batchSlugs (specBatch wNodes wEdges wSel)) (specBatch wNodes wEdges wSel) ∧
      generate_file_contents (specItem wNodes wEdges "b")
          (batchSlugs (specBatch wNodes wEdges wSel)) (specBatch wNodes wEdges wSel)
          "2026-01-01" =
        "---\ntitle: \"" ++
          escape_yaml_string (firstEightWords (specItem wNodes wEdges "b").text) ++
          "\"\ndate: " ++ "2026-01-01" ++ "\n" ++
        ("context_for_this:\n" ++
          renderEntries (contextForThis (specItem wNodes wEdges "b")
            (batchSlugs (specBatch wNodes wEdges wSel)) (specBatch wNodes wEdges wSel))) ++
        (if (furtherThinking (specItem wNodes wEdges "b")
              (batchSlugs (specBatch wNodes wEdges wSel))
              (specBatch wNodes wEdges wSel)).isEmpty then ""
          else "further_thinking:\n" ++
            renderEntries (furtherThinking (specItem wNodes wEdges "b")
              (batchSlugs (specBatch wNodes wEdges wSel)) (specBatch wNodes wEdges wSel))) ++
        "---\n\n" ++ (specItem wNodes wEdges "b").text ∧
      ∃ pre post,
        renderEntries (contextForThis (specItem wNodes wEdges "b")
            (batchSlugs (specBatch wNodes wEdges wSel)) (specBatch wNodes wEdges wSel)) =
          pre ++
            renderEntry (lt, mkHref (generate_slug (specItem wNodes wEdges "a").text) "a") ++
            post) ∧
    (∃ lt,
      (lt, mkHref (generate_slug (specItem wNodes wEdges "b").text) "b") ∈
        furtherThinking (specItem wNodes wEdges "a")
          (batchSlugs (specBatch wNodes wEdges wSel)) (specBatch wNodes wEdges wSel) ∧
      generate_file_contents (specItem wNodes wEdges "a")
          (batchSlugs (specBatch wNodes wEdges wSel)) (specBatch wNodes wEdges wSel)
          "2026-01-01" =
        "---\ntitle: \"" ++
          escape_yaml_string (firstEightWords (specItem wNodes wEdges "a").text) ++
          "\"\ndate: " ++ "2026-01-01" ++ "\n" ++
        (if (contextForThis (specItem wNodes wEdges "a")
              (batchSlugs (specBatch wNodes wEdges wSel))
              (specBatch wNodes wEdges wSel)).isEmpty then ""
          else "context_for_this:\n" ++
            renderEntries (contextForThis (specItem wNodes wEdges "a")
              (batchSlugs (specBatch wNodes wEdges wSel)) (specBatch wNodes wEdges wSel))) ++
        ("further_thinking:\n" ++
          renderEntries (furtherThinking (specItem wNodes wEdges "a")
            (batchSlugs (specBatch wNodes wEdges wSel)) (specBatch wNodes wEdges wSel))) ++
        "---\n\n" ++ (specItem wNodes wEdges "a").text ∧
      ∃ pre post,
        renderEntries (furtherThinking (specItem wNodes wEdges "a")
            (batchSlugs (specBatch wNodes wEdges wSel)) (specBatch wNodes wEdges wSel)) =
          pre ++
            renderEntry (lt, mkHref (generate_slug (specItem wNodes wEdges "b").text) "b") ++
            post) := by
  have h := cross_reference_accuracy wNodes wEdges wSel "a" "b" "e1" "2026-01-01"
    (by decide) (by decide) (by decide)
  exact ⟨h.1, h.2.1⟩

/-- C7 witness: the filter characterisation instantiated at a red text
node and two different adjacency snapshots. -/
theorem default_node_filter_spec_witness :
    (default_node_filter (Node.text "hi" (some (Color.preset PresetColor.red))) [] [] =
        true ↔
      ∃ t, Node.text "hi" (some (Color.preset PresetColor.red)) =
          Node.text t (some (Color.preset PresetColor.red)) ∧ t ≠ "") ∧
    default_node_filter (Node.text "hi" (some (Color.preset PresetColor.red))) [] [] =
      default_node_filter (Node.text "hi" (some (Color.preset PresetColor.red)))
        [("x", "e1")] [("y", "e2")] :=
  default_node_filter_spec (Node.text "hi" (some (Color.preset PresetColor.red)))
    [] [] [("x", "e1")] [("y", "e2")]

/-- C10 witness: validation at a concrete existing `note.canvas` file. -/
theorem validate_canvas_path_spec_witness :
    validate_canvas_path ⟨true, some "note.canvas"⟩ = Except.ok () ∧
    ∃ n pre, (PathInfo.mk true (some "note.canvas")).file_name = some n ∧
      n.data = pre ++ ".canvas".data := by
  have h := validate_canvas_path_spec ⟨true, some "note.canvas"⟩
  have hok : validate_canvas_path ⟨true, some "note.canvas"⟩ = Except.ok () :=
    h.1.mpr ⟨rfl, by decide⟩
  exact ⟨hok, h.2 hok⟩
